import Mathlib

/-!
Shallow embedding of the echo-keycloak middleware (keycloak.go and
keycloak_roles.go) and proofs about the claims of its specification.

Go strings are modelled as Lean `String` (sequences of characters), Go maps
and the echo request-scoped context store as association lists, the values of
a `jwt.MapClaims` mapping (`map[string]interface{}`) as a JSON-like inductive
type, and Go run-time panics (failed type assertions, out-of-range indexing)
as the `Exec.crash` result.  External collaborators (the gocloak client) are
modelled as an explicit decoder record passed to the middleware.
-/

/-- Values stored in a `jwt.MapClaims` mapping (`map[string]interface{}`). -/
inductive JsonValue where
  | str (s : String)
  | num (n : Int)
  | jbool (b : Bool)
  | jnull
  | arr (elems : List JsonValue)
  | obj (fields : List (String × JsonValue))

/-- A `jwt.Claims` interface value: either `jwt.MapClaims` or some other
caller-supplied claims implementation (kept abstract by a tag). -/
inductive GoClaims where
  | mapClaims (entries : List (String × JsonValue))
  | customClaims (tag : Nat)

/-- A `*jwt.Token`: validity flag plus claims. -/
structure Token where
  valid : Bool
  claims : GoClaims

/-- A Go `error` as used by the middleware: either an `*echo.HTTPError`
(with code, message and wrapped internal error) or some other error value. -/
inductive KErr where
  | httpError (code : Nat) (message : String) (internal : Option KErr)
  | tagged (tag : Nat)

/-- `echo.HTTPError.Error()` formatting, used when an error is turned into a
message string. -/
def kerrMessage : KErr → String
  | KErr.httpError code msg _ => "code=" ++ toString code ++ ", message=" ++ msg
  | KErr.tagged _ => "error"

/-- Top-level HTTP status code of an optional error (0 when absent or not an
`HTTPError`). -/
def kerrCode : Option KErr → Nat
  | some (KErr.httpError code _ _) => code
  | _ => 0

/-- Values stored in the echo request-scoped context store: a `*jwt.Token`,
a `[]string`, or anything else. -/
inductive CtxValue where
  | token (t : Token)
  | strList (l : List String)
  | otherVal (tag : Nat)

/-- The request data the extractors read. -/
structure Request where
  headers : List (String × String)
  queryParams : List (String × String)
  pathParams : List (String × String)
  cookies : List (String × String)

/-- An `echo.Context`: the request plus the key-value store written by
`Context.Set` and read by `Context.Get`. -/
structure EchoCtx where
  request : Request
  store : List (String × CtxValue)

/-- `Context.Get`: `nil` (here `none`) when the key was never set. -/
def storeGet : List (String × CtxValue) → String → Option CtxValue
  | [], _ => none
  | (k', v) :: rest, k => if k' = k then some v else storeGet rest k

/-- `Context.Set`: overwrite the binding for the key, keep the rest. -/
def storeSet : List (String × CtxValue) → String → CtxValue → List (String × CtxValue)
  | [], k, v => [(k, v)]
  | (k', w) :: rest, k, v => if k' = k then (k, v) :: rest else (k', w) :: storeSet rest k v

def ctxSet (c : EchoCtx) (k : String) (v : CtxValue) : EchoCtx :=
  { c with store := storeSet c.store k v }

/-- First-match lookup in a string association list, empty string when absent
(Go `http.Header.Get` / `QueryParam` / `Param` behaviour). -/
def assocGetD : List (String × String) → String → String
  | [], _ => ""
  | (k', v) :: rest, k => if k' = k then v else assocGetD rest k

/-- Lookup in a string association list returning `none` when absent
(cookie lookup behaviour). -/
def assocGet : List (String × String) → String → Option String
  | [], _ => none
  | (k', v) :: rest, k => if k' = k then some v else assocGet rest k

/-- Lookup in a claims mapping. -/
def jsonLookup : List (String × JsonValue) → String → Option JsonValue
  | [], _ => none
  | (k', v) :: rest, k => if k' = k then some v else jsonLookup rest k

/-- Result of running Go code that may panic. -/
inductive Exec (α : Type) where
  | ret (a : α)
  | crash

/-- Result of one middleware handler invocation: either the next handler was
invoked with the (possibly mutated) context, or the handler returned an error
value (possibly `nil`) without calling next. -/
inductive MWOut where
  | next (ctx : EchoCtx)
  | stop (e : Option KErr) (ctx : EchoCtx)

def mwCtx : MWOut → EchoCtx
  | MWOut.next c => c
  | MWOut.stop _ c => c

def mwIsNext : MWOut → Bool
  | MWOut.next _ => true
  | MWOut.stop _ _ => false

/-- `middleware.DefaultSkipper`: never skip. -/
def defaultSkipper : EchoCtx → Bool := fun _ => false

/-- The skipper actually used by a handler closure (`nil` was replaced by the
default at construction time). -/
def skipperOf (s : Option (EchoCtx → Bool)) : EchoCtx → Bool :=
  match s with
  | some f => f
  | none => defaultSkipper

/-- Run an optional context hook (`BeforeFunc` / `SuccessHandler`); the Go
hooks mutate the context in place, modelled as a context transformer. -/
def applyHook (h : Option (EchoCtx → EchoCtx)) (ctx : EchoCtx) : EchoCtx :=
  match h with
  | some f => f ctx
  | none => ctx

/-- `ErrTokenMissing` (keycloak.go line 77). -/
def ErrTokenMissing : KErr := KErr.httpError 400 "missing or malformed token" none

/-- `ErrClaimsMissing` (keycloak_roles.go line 46). -/
def ErrClaimsMissing : KErr := KErr.httpError 500 "no claims in context found" none

/-- `ErrRealmAccessMissing` (keycloak_roles.go line 47). -/
def ErrRealmAccessMissing : KErr := KErr.httpError 500 "no realm_access in claims found" none

/-- `ErrRolesMissing` (keycloak_roles.go line 48). -/
def ErrRolesMissing : KErr := KErr.httpError 500 "no roles in realm_access claim found" none

/-- `ErrRolesInvalid` (keycloak_roles.go line 49). -/
def ErrRolesInvalid : KErr := KErr.httpError 403 "invalid roles" none

/-- The `r.(string)` conversion loop of keycloak_roles.go lines 111-113:
collects the role strings, `none` when some entry is not a string (the Go
code panics there on the unchecked type assertion). -/
def asStrings : List JsonValue → Option (List String)
  | [] => some []
  | JsonValue.str s :: rest => (asStrings rest).map (fun l => s :: l)
  | _ => none

/-- The required-role loop of keycloak_roles.go lines 114-119: the first
required role not contained in the resolved list sets `ErrRolesInvalid` and
breaks. -/
def checkRoles (required resolved : List String) : Option KErr :=
  match required with
  | [] => none
  | r :: rest => if resolved.contains r then checkRoles rest resolved else some ErrRolesInvalid

/-- `KeycloakRolesConfig` (keycloak_roles.go). `none` models a nil field. -/
structure KeycloakRolesConfig where
  skipper : Option (EchoCtx → Bool)
  beforeFunc : Option (EchoCtx → EchoCtx)
  successHandler : Option (EchoCtx → EchoCtx)
  errorHandler : Option (Option KErr → Option KErr)
  errorHandlerWithContext : Option (Option KErr → EchoCtx → Option KErr)
  keycloakRoles : List String
  tokenContextKey : String
  rolesContextKey : String

/-- `DefaultKeycloakRolesConfig` (keycloak_roles.go lines 52-59). -/
def DefaultKeycloakRolesConfig : KeycloakRolesConfig :=
  { skipper := some defaultSkipper
    beforeFunc := none
    successHandler := none
    errorHandler := none
    errorHandlerWithContext := none
    keycloakRoles := []
    tokenContextKey := "user"
    rolesContextKey := "roles" }

/-- Defaulting and validation done by `KeycloakRolesWithConfig` before the
closure is built (keycloak_roles.go lines 75-84): default skipper, panic on
an empty role list, default token context key.  `RolesContextKey` is not
defaulted there. -/
def rolesApplyDefaults (cfg : KeycloakRolesConfig) : Exec KeycloakRolesConfig :=
  let c0 := if cfg.skipper.isNone then { cfg with skipper := DefaultKeycloakRolesConfig.skipper } else cfg
  if c0.keycloakRoles.length = 0 then Exec.crash
  else
    Exec.ret
      (if c0.tokenContextKey = "" then
        { c0 with tokenContextKey := DefaultKeycloakRolesConfig.tokenContextKey }
      else c0)

/-- keycloak_roles.go lines 123-141: bind the role list and call next on
success, otherwise dispatch to the error hooks or the default 403 response
whose message is `ErrRolesInvalid.Error()` and whose internal error is the
error found. -/
def rolesFinish (cfg : KeycloakRolesConfig) (c : EchoCtx) (tok : Token) (e : Option KErr)
    (resolved : List String) : MWOut :=
  if e.isNone && tok.valid then
    MWOut.next (applyHook cfg.successHandler (ctxSet c cfg.rolesContextKey (CtxValue.strList resolved)))
  else
    match cfg.errorHandler with
    | some h => MWOut.stop (h e) c
    | none =>
      match cfg.errorHandlerWithContext with
      | some h => MWOut.stop (h e c) c
      | none => MWOut.stop (some (KErr.httpError 403 (kerrMessage ErrRolesInvalid) e)) c

/-- The per-request handler of `KeycloakRolesWithConfig` (keycloak_roles.go
lines 86-142), for an already-defaulted config.  Note line 98 of the source:
the token is read from `DefaultKeycloakRolesConfig.TokenContextKey`, not from
`config.TokenContextKey`, and the `.(*jwt.Token)` and `.(string)` type
assertions are unchecked, so a missing or differently-typed context value and
a non-string role entry panic (`Exec.crash`). -/
def keycloakRolesRun (cfg : KeycloakRolesConfig) (ctx : EchoCtx) : Exec MWOut :=
  if skipperOf cfg.skipper ctx then Exec.ret (MWOut.next ctx)
  else
    let c := applyHook cfg.beforeFunc ctx
    match storeGet c.store DefaultKeycloakRolesConfig.tokenContextKey with
    | some (CtxValue.token tok) =>
      match tok.claims with
      | GoClaims.mapClaims claims =>
        match jsonLookup claims "realm_access" with
        | some (JsonValue.obj realmAccess) =>
          match jsonLookup realmAccess "roles" with
          | some (JsonValue.arr rolesRaw) =>
            match asStrings rolesRaw with
            | some resolved =>
              Exec.ret (rolesFinish cfg c tok (checkRoles cfg.keycloakRoles resolved) resolved)
            | none => Exec.crash
          | _ => Exec.ret (rolesFinish cfg c tok (some ErrRolesMissing) [])
        | _ => Exec.ret (rolesFinish cfg c tok (some ErrRealmAccessMissing) [])
      | _ => Exec.ret (rolesFinish cfg c tok (some ErrClaimsMissing) [])
    | _ => Exec.crash

/-- `KeycloakRolesWithConfig` applied to one request: construction-time
defaulting followed by the handler. -/
def keycloakRolesWithConfig (cfg : KeycloakRolesConfig) (ctx : EchoCtx) : Exec MWOut :=
  match rolesApplyDefaults cfg with
  | Exec.ret c => keycloakRolesRun c ctx
  | Exec.crash => Exec.crash

/-- `KeycloakRoles(roles)` (keycloak_roles.go lines 66-70). -/
def KeycloakRoles (roles : List String) (ctx : EchoCtx) : Exec MWOut :=
  keycloakRolesWithConfig { DefaultKeycloakRolesConfig with keycloakRoles := roles } ctx

/-- `strings.ToLower` restricted to the ASCII range (sufficient for auth
schemes and header values used here). -/
def goToLower (s : String) : String := String.mk (s.data.map Char.toLower)

/-- Go slicing `s[:n]` on the character model. -/
def goTake (s : String) (n : Nat) : String := String.mk (s.data.take n)

/-- Go slicing `s[n:]` on the character model. -/
def goDrop (s : String) (n : Nat) : String := String.mk (s.data.drop n)

/-- Go `len(s)` on the character model. -/
def goLength (s : String) : Nat := s.data.length

/-- The closure body of `tokenFromHeader` (keycloak.go lines 192-199) applied
to an already-read header value: return the remainder after position
`len(scheme)+1` when the value is long enough and its first `len(scheme)`
characters equal the scheme case-insensitively, else `ErrTokenMissing`.
The character at position `len(scheme)` is not inspected by the source. -/
def tokenFromHeaderVal (authScheme auth : String) : Except KErr String :=
  if goLength auth > goLength authScheme + 1 ∧
      goToLower (goTake auth (goLength authScheme)) = goToLower authScheme then
    Except.ok (goDrop auth (goLength authScheme + 1))
  else
    Except.error ErrTokenMissing

/-- `tokenFromHeader` (keycloak.go lines 190-200). -/
def tokenFromHeader (header authScheme : String) (c : EchoCtx) : Except KErr String :=
  tokenFromHeaderVal authScheme (assocGetD c.request.headers header)

/-- `tokenFromQuery` (keycloak.go lines 202-211). -/
def tokenFromQuery (param : String) (c : EchoCtx) : Except KErr String :=
  let t := assocGetD c.request.queryParams param
  if t = "" then Except.error ErrTokenMissing else Except.ok t

/-- `tokenFromParam` (keycloak.go lines 213-222). -/
def tokenFromParam (param : String) (c : EchoCtx) : Except KErr String :=
  let t := assocGetD c.request.pathParams param
  if t = "" then Except.error ErrTokenMissing else Except.ok t

/-- `tokenFromCookie` (keycloak.go lines 224-233). -/
def tokenFromCookie (name : String) (c : EchoCtx) : Except KErr String :=
  match assocGet c.request.cookies name with
  | some v => Except.ok v
  | none => Except.error ErrTokenMissing

/-- The extractor selected at construction time. -/
inductive Extractor where
  | header (name : String) (authScheme : String)
  | query (name : String)
  | param (name : String)
  | cookie (name : String)

def runExtractor : Extractor → EchoCtx → Except KErr String
  | Extractor.header name scheme, c => tokenFromHeader name scheme c
  | Extractor.query name, c => tokenFromQuery name c
  | Extractor.param name, c => tokenFromParam name c
  | Extractor.cookie name, c => tokenFromCookie name c

/-- `strings.Split` for a one-character separator, written as a structurally
recursive accumulator pass over the characters. -/
def goSplitAux (sep : Char) : List Char → List Char → List String
  | [], acc => [String.mk acc.reverse]
  | ch :: rest, acc =>
    if ch = sep then String.mk acc.reverse :: goSplitAux sep rest []
    else goSplitAux sep rest (ch :: acc)

def goSplit (s : String) (sep : Char) : List String := goSplitAux sep s.data []

/-- Extractor selection of `KeycloakWithConfig` (keycloak.go lines 130-139):
split the token lookup on `:`; `parts[1]` panics when there is no colon; the
switch on `parts[0]` recognises `query`, `param` and `cookie` and otherwise
keeps the header extractor built from `parts[1]` and the auth scheme. -/
def selectExtractor (tokenLookup authScheme : String) : Exec Extractor :=
  match goSplit tokenLookup ':' with
  | src :: name :: _ =>
    Exec.ret
      (if src = "query" then Extractor.query name
       else if src = "param" then Extractor.param name
       else if src = "cookie" then Extractor.cookie name
       else Extractor.header name authScheme)
  | _ => Exec.crash

/-- Which gocloak decode entry point the gate called. -/
inductive DecodeCall where
  | customCall
  | defaultCall
deriving DecidableEq

/-- The external gocloak client (performs the actual verification over the
network), modelled as an oracle: both entry points take the raw token and the
realm and return a token plus error; the default one also returns the claims
it produced. -/
structure Decoder where
  decodeAccessTokenCustomClaims : String → String → GoClaims → Token × Option KErr
  decodeAccessToken : String → String → Token × GoClaims × Option KErr

/-- The validation step of `KeycloakWithConfig` (keycloak.go lines 162-167).
The source guard is `_, ok := config.Claims.(jwt.Claims)`: asserting an
interface value to its own interface type, which succeeds precisely when the
value is non-nil, i.e. when `claims` is `some`. -/
def validateToken (dec : Decoder) (realm : String) (claims : Option GoClaims) (auth : String) :
    DecodeCall × Token × Option KErr :=
  match claims with
  | some cl =>
    let r := dec.decodeAccessTokenCustomClaims auth realm cl
    (DecodeCall.customCall, r.1, r.2)
  | none =>
    let r := dec.decodeAccessToken auth realm
    (DecodeCall.defaultCall, r.1, r.2.2)

/-- `KeycloakConfig` (keycloak.go). `none` models a nil field. -/
structure KeycloakConfig where
  skipper : Option (EchoCtx → Bool)
  beforeFunc : Option (EchoCtx → EchoCtx)
  successHandler : Option (EchoCtx → EchoCtx)
  errorHandler : Option (Option KErr → Option KErr)
  errorHandlerWithContext : Option (Option KErr → EchoCtx → Option KErr)
  keycloakURL : String
  keycloakRealm : String
  contextKey : String
  claims : Option GoClaims
  tokenLookup : String
  authScheme : String

/-- `DefaultKeycloakConfig` (keycloak.go lines 80-89). -/
def DefaultKeycloakConfig : KeycloakConfig :=
  { skipper := some defaultSkipper
    beforeFunc := none
    successHandler := none
    errorHandler := none
    errorHandlerWithContext := none
    keycloakURL := ""
    keycloakRealm := ""
    contextKey := "user"
    claims := some (GoClaims.mapClaims [])
    tokenLookup := "header:Authorization"
    authScheme := "Bearer"
    }

/-- Field defaulting of `KeycloakWithConfig` (keycloak.go lines 109-126); the
five defaulted fields are independent, so the sequential Go assignments are
one record update. -/
def keycloakApplyDefaults (cfg : KeycloakConfig) : KeycloakConfig :=
  { cfg with
    skipper := if cfg.skipper.isNone then DefaultKeycloakConfig.skipper else cfg.skipper
    contextKey := if cfg.contextKey = "" then DefaultKeycloakConfig.contextKey else cfg.contextKey
    claims := if cfg.claims.isNone then DefaultKeycloakConfig.claims else cfg.claims
    tokenLookup := if cfg.tokenLookup = "" then DefaultKeycloakConfig.tokenLookup else cfg.tokenLookup
    authScheme := if cfg.authScheme = "" then DefaultKeycloakConfig.authScheme else cfg.authScheme }

/-- `default response` of the authentication gate for validation failures
(keycloak.go lines 181-185). -/
def default401 (internal : Option KErr) : KErr :=
  KErr.httpError 401 "invalid or expired token" internal

/-- The per-request handler of `KeycloakWithConfig` (keycloak.go lines
141-187), for an already-defaulted config and selected extractor.  On an
extraction error the hook cascade falls back to returning that error itself
(line 160); on a validation failure it falls back to the 401 response (lines
181-185); on success the token is bound under the configured context key. -/
def keycloakRun (cfg : KeycloakConfig) (ex : Extractor) (dec : Decoder) (ctx : EchoCtx) : MWOut :=
  if skipperOf cfg.skipper ctx then MWOut.next ctx
  else
    let c := applyHook cfg.beforeFunc ctx
    match runExtractor ex c with
    | Except.error e =>
      match cfg.errorHandler with
      | some h => MWOut.stop (h (some e)) c
      | none =>
        match cfg.errorHandlerWithContext with
        | some h => MWOut.stop (h (some e) c) c
        | none => MWOut.stop (some e) c
    | Except.ok auth =>
      let v := validateToken dec cfg.keycloakRealm cfg.claims auth
      if v.2.2.isNone && v.2.1.valid then
        MWOut.next (applyHook cfg.successHandler (ctxSet c cfg.contextKey (CtxValue.token v.2.1)))
      else
        match cfg.errorHandler with
        | some h => MWOut.stop (h v.2.2) c
        | none =>
          match cfg.errorHandlerWithContext with
          | some h => MWOut.stop (h v.2.2 c) c
          | none => MWOut.stop (some (default401 v.2.2)) c

/-- `KeycloakWithConfig` applied to one request: the construction-time panic
on a missing URL, defaulting, extractor selection, then the handler. -/
def keycloakWithConfig (cfg : KeycloakConfig) (dec : Decoder) (ctx : EchoCtx) : Exec MWOut :=
  if cfg.keycloakURL = "" then Exec.crash
  else
    let c := keycloakApplyDefaults cfg
    match selectExtractor c.tokenLookup c.authScheme with
    | Exec.ret ex => Exec.ret (keycloakRun c ex dec ctx)
    | Exec.crash => Exec.crash

/-- `Keycloak(url, realm)` (keycloak.go lines 98-103). -/
def Keycloak (url realm : String) (dec : Decoder) (ctx : EchoCtx) : Exec MWOut :=
  keycloakWithConfig { DefaultKeycloakConfig with keycloakURL := url, keycloakRealm := realm } dec ctx

/-- The failure handling claimed by the specification for the authentication
gate (spec section 4.2 step 6), stated as its own definition for comparison
with the code: context-free hook first, then context-aware hook, then always
the default 401 response wrapping the error. -/
def claimedAuthFailure (cfg : KeycloakConfig) (e : Option KErr) (c : EchoCtx) : Option KErr :=
  match cfg.errorHandler with
  | some h => h e
  | none =>
    match cfg.errorHandlerWithContext with
    | some h => h e c
    | none => some (default401 e)

/-- The failure dispatch the code actually performs on both failure sites of
the authentication gate, summarised with an explicit fallback result `dflt`
(the raw extraction error on the extraction site, the 401 response on the
validation site). -/
def authFailDispatch (cfg : KeycloakConfig) (e dflt : Option KErr) (c : EchoCtx) : Option KErr :=
  match cfg.errorHandler with
  | some h => h e
  | none =>
    match cfg.errorHandlerWithContext with
    | some h => h e c
    | none => dflt

/-- A request with no data at all. -/
def emptyReq : Request := { headers := [], queryParams := [], pathParams := [], cookies := [] }

/-- A context with an empty store (no principal has been bound). -/
def emptyCtx : EchoCtx := { request := emptyReq, store := [] }

/-- A valid token whose claims hold `realm_access.roles = ["admin"]`. -/
def tokenGood : Token :=
  { valid := true
    claims := GoClaims.mapClaims
      [("realm_access", JsonValue.obj [("roles", JsonValue.arr [JsonValue.str "admin"])])] }

/-- A decoder oracle that accepts every token as `tokenGood`. -/
def decoderGood : Decoder :=
  { decodeAccessTokenCustomClaims := fun _ _ _ => (tokenGood, none)
    decodeAccessToken := fun _ _ => (tokenGood, GoClaims.mapClaims [], none) }

/-- Roles middleware configuration requiring role `admin`, everything else
left at the source defaults. -/
def rolesCfgAdmin : KeycloakRolesConfig := { DefaultKeycloakRolesConfig with keycloakRoles := ["admin"] }

/-- A request carrying `Authorization: Bearer tok`. -/
def reqWithAuth : Request := { emptyReq with headers := [("Authorization", "Bearer tok")] }

/-- The context of `reqWithAuth` before any middleware ran. -/
def ctxWithAuth : EchoCtx := { request := reqWithAuth, store := [] }

/-- The defaulted default authentication configuration with a keycloak URL
and realm set and no hooks. -/
def authCfgW : KeycloakConfig :=
  keycloakApplyDefaults { DefaultKeycloakConfig with keycloakURL := "http://kc", keycloakRealm := "r" }

/-- Authentication configuration whose context key is `"token"`. -/
def authCfgTok : KeycloakConfig :=
  { DefaultKeycloakConfig with keycloakURL := "http://kc", keycloakRealm := "r", contextKey := "token" }

/-- Roles configuration whose token context key is the same `"token"`. -/
def rolesCfgTok : KeycloakRolesConfig :=
  { DefaultKeycloakRolesConfig with keycloakRoles := ["admin"], tokenContextKey := "token" }

/-- The context after the authentication gate of `authCfgTok` bound
`tokenGood` under `"token"`. -/
def ctxBoundTok : EchoCtx := { request := reqWithAuth, store := [("token", CtxValue.token tokenGood)] }

/-- A valid token whose claims hold no `realm_access` entry. -/
def tokenNoRealm : Token := { valid := true, claims := GoClaims.mapClaims [("foo", JsonValue.str "bar")] }

/-- A context in which `tokenNoRealm` is bound under the default key. -/
def ctxUserNoRealm : EchoCtx := { request := emptyReq, store := [("user", CtxValue.token tokenNoRealm)] }

/-- A valid token whose `realm_access.roles` list holds the non-string entry
`42` after `"admin"`. -/
def tokenBadRole : Token :=
  { valid := true
    claims := GoClaims.mapClaims
      [("realm_access", JsonValue.obj
        [("roles", JsonValue.arr [JsonValue.str "admin", JsonValue.num 42])])] }

/-- A context in which `tokenBadRole` is bound under the default key. -/
def ctxUserBadRole : EchoCtx := { request := emptyReq, store := [("user", CtxValue.token tokenBadRole)] }

/-- Binding a value under a key makes `Context.Get` of that key return it. -/
theorem storeGet_storeSet_self (s : List (String × CtxValue)) (k : String) (v : CtxValue) :
    storeGet (storeSet s k v) k = some v := by
  induction s with
  | nil => simp [storeSet, storeGet]
  | cons hd tl ih =>
    obtain ⟨k', w⟩ := hd
    by_cases h : k' = k <;> simp [storeSet, storeGet, h, ih]

/-- `List.contains` agrees with membership on strings. -/
theorem containsAgreesWithMem (l : List String) (a : String) : l.contains a = true ↔ a ∈ l :=
  List.elem_iff

/-- C1: when both gates are configured with the same context key "token", the
authentication gate binds the principal under "token", yet the authorization
gate panics instead of reading it: keycloak_roles.go line 98 reads the
hard-coded default key "user" rather than the configured TokenContextKey. -/
theorem c1_shared_key_contract_broken :
    keycloakWithConfig authCfgTok decoderGood ctxWithAuth = Exec.ret (MWOut.next ctxBoundTok) ∧
    authCfgTok.contextKey = "token" ∧
    rolesCfgTok.tokenContextKey = "token" ∧
    storeGet ctxBoundTok.store "token" = some (CtxValue.token tokenGood) ∧
    keycloakRolesWithConfig rolesCfgTok ctxBoundTok = Exec.crash :=
  ⟨rfl, rfl, rfl, rfl, rfl⟩

/-- C2: on a request whose context store holds no principal under the agreed
key, the authorization gate does not fail with ClaimsMissing: it panics on
the unchecked `.(*jwt.Token)` type assertion of keycloak_roles.go line 98. -/
theorem c2_missing_principal_panics :
    storeGet emptyCtx.store rolesCfgAdmin.tokenContextKey = none ∧
    keycloakRolesWithConfig rolesCfgAdmin emptyCtx = Exec.crash :=
  ⟨rfl, rfl⟩

/-- C3: a valid principal without a realm_access sub-mapping and no error
hooks yields the default response of keycloak_roles.go lines 136-140: HTTP
status 403 with message "invalid roles", merely wrapping the 500-coded
RealmAccessMissing error as internal detail, not a 500 response. -/
theorem c3_realm_access_missing_gets_403_response :
    keycloakRolesWithConfig rolesCfgAdmin ctxUserNoRealm =
      Exec.ret (MWOut.stop
        (some (KErr.httpError 403 (kerrMessage ErrRolesInvalid) (some ErrRealmAccessMissing)))
        ctxUserNoRealm) ∧
    kerrCode (some (KErr.httpError 403 (kerrMessage ErrRolesInvalid) (some ErrRealmAccessMissing))) = 403 ∧
    kerrCode (some ErrRealmAccessMissing) = 500 ∧
    (403 : Nat) ≠ 500 :=
  ⟨rfl, rfl, rfl, by decide⟩

/-- C6: a realm_access.roles list holding the non-string entry 42 does not
produce RolesMissing: the gate panics on the unchecked `.(string)` assertion
of keycloak_roles.go line 112. -/
theorem c6_nonstring_role_entry_panics :
    asStrings [JsonValue.str "admin", JsonValue.num 42] = none ∧
    keycloakRolesWithConfig rolesCfgAdmin ctxUserBadRole = Exec.crash :=
  ⟨rfl, rfl⟩

/-- C4 counterexample: the header value "BearerXabc123" is not the scheme
followed by a single space (the character at position len("Bearer") is 'X'),
yet the extractor still returns "abc123": the separator character is never
inspected by keycloak.go lines 195-196. -/
theorem c4_counterexample_separator_not_space :
    tokenFromHeaderVal "Bearer" "BearerXabc123" = Except.ok "abc123" ∧
    "BearerXabc123".data.get? (goLength "Bearer") = some 'X' ∧
    ('X' : Char) ≠ ' ' :=
  ⟨rfl, rfl, by decide⟩

/-- C4 amended: the header extractor returns a token exactly when the header
value is longer than len(scheme)+1 characters and its first len(scheme)
characters equal the scheme case-insensitively; the separator character at
position len(scheme) is not checked; on success the remainder after position
len(scheme)+1 is returned and in every other case the result is
ErrTokenMissing. -/
theorem c4_header_extraction_characterised (authScheme auth tok : String) :
    (tokenFromHeaderVal authScheme auth = Except.ok tok ↔
      (goLength auth > goLength authScheme + 1 ∧
        goToLower (goTake auth (goLength authScheme)) = goToLower authScheme) ∧
      tok = goDrop auth (goLength authScheme + 1)) ∧
    (tokenFromHeaderVal authScheme auth = Except.error ErrTokenMissing ↔
      ¬(goLength auth > goLength authScheme + 1 ∧
        goToLower (goTake auth (goLength authScheme)) = goToLower authScheme)) := by
  by_cases h : goLength auth > goLength authScheme + 1 ∧
      goToLower (goTake auth (goLength authScheme)) = goToLower authScheme
  · simp [tokenFromHeaderVal, h, eq_comm]
  · simp [tokenFromHeaderVal, h]

/-- C5 counterexample: with no error hooks configured, a failed extraction
makes the authentication gate return the raw 400 ErrTokenMissing error
(keycloak.go line 160), not the claimed default 401 response. -/
theorem c5_counterexample_extraction_default_not_401 :
    keycloakRun authCfgW (Extractor.header "Authorization" "Bearer") decoderGood emptyCtx =
      MWOut.stop (some ErrTokenMissing) emptyCtx ∧
    claimedAuthFailure authCfgW (some ErrTokenMissing) emptyCtx =
      some (default401 (some ErrTokenMissing)) ∧
    kerrCode (some ErrTokenMissing) = 400 ∧
    kerrCode (claimedAuthFailure authCfgW (some ErrTokenMissing) emptyCtx) = 401 ∧
    (400 : Nat) ≠ 401 :=
  ⟨rfl, rfl, rfl, rfl, by decide⟩

/-- C5 amended: on every failure the authentication gate dispatches through
the hook cascade (context-free hook first, then context-aware hook); with no
hooks, a validation failure falls back to the default 401 response wrapping
the underlying error, while an extraction failure falls back to returning
the extraction error itself. -/
theorem c5_failure_hook_dispatch (cfg : KeycloakConfig) (ex : Extractor) (dec : Decoder)
    (ctx : EchoCtx) (eK : KErr) (auth : String)
    (f : Option KErr → Option KErr) (g : Option KErr → EchoCtx → Option KErr)
    (e dflt : Option KErr)
    (hskip : skipperOf cfg.skipper ctx = false) (hbefore : cfg.beforeFunc = none) :
    (runExtractor ex ctx = Except.error eK →
      keycloakRun cfg ex dec ctx =
        MWOut.stop (authFailDispatch cfg (some eK) (some eK) ctx) ctx) ∧
    (runExtractor ex ctx = Except.ok auth →
      ((validateToken dec cfg.keycloakRealm cfg.claims auth).2.2.isNone &&
        (validateToken dec cfg.keycloakRealm cfg.claims auth).2.1.valid) = false →
      keycloakRun cfg ex dec ctx =
        MWOut.stop (authFailDispatch cfg
          (validateToken dec cfg.keycloakRealm cfg.claims auth).2.2
          (some (default401 (validateToken dec cfg.keycloakRealm cfg.claims auth).2.2)) ctx) ctx) ∧
    (cfg.errorHandler = some f → authFailDispatch cfg e dflt ctx = f e) ∧
    (cfg.errorHandler = none → cfg.errorHandlerWithContext = some g →
      authFailDispatch cfg e dflt ctx = g e ctx) ∧
    (cfg.errorHandler = none → cfg.errorHandlerWithContext = none →
      authFailDispatch cfg e dflt ctx = dflt) := by
  refine ⟨?_, ?_, ?_, ?_, ?_⟩
  · intro hex
    cases hEH : cfg.errorHandler <;> cases hEHC : cfg.errorHandlerWithContext <;>
      simp [keycloakRun, hskip, hbefore, applyHook, hex, authFailDispatch, hEH, hEHC]
  · intro hex hfail
    cases hEH : cfg.errorHandler <;> cases hEHC : cfg.errorHandlerWithContext <;>
      simp [keycloakRun, hskip, hbefore, applyHook, hex, hfail, authFailDispatch, hEH, hEHC]
  · intro hEH
    simp [authFailDispatch, hEH]
  · intro hEH hEHC
    simp [authFailDispatch, hEH, hEHC]
  · intro hEH hEHC
    simp [authFailDispatch, hEH, hEHC]

theorem c5_failure_hook_dispatch_witness :
    (skipperOf authCfgW.skipper emptyCtx = false ∧ authCfgW.beforeFunc = none ∧
      runExtractor (Extractor.header "Authorization" "Bearer") emptyCtx =
        Except.error ErrTokenMissing) ∧
    keycloakRun authCfgW (Extractor.header "Authorization" "Bearer") decoderGood emptyCtx =
      MWOut.stop (authFailDispatch authCfgW (some ErrTokenMissing) (some ErrTokenMissing) emptyCtx)
        emptyCtx :=
  ⟨⟨rfl, rfl, rfl⟩,
    (c5_failure_hook_dispatch authCfgW (Extractor.header "Authorization" "Bearer") decoderGood
      emptyCtx ErrTokenMissing "x" (fun e => e) (fun e _ => e) none none rfl rfl).1 rfl⟩

/-- C7: the membership check succeeds exactly when every required role
appears in the resolved list; any failure yields ErrRolesInvalid (the loop
breaks at the first missing required role); in particular required roles
["admin", "editor"] against resolved ["editor"] yield ErrRolesInvalid. -/
theorem c7_required_roles_all_must_match (required resolved : List String) :
    (checkRoles required resolved = none ↔ ∀ r ∈ required, r ∈ resolved) ∧
    (checkRoles required resolved = none ∨ checkRoles required resolved = some ErrRolesInvalid) ∧
    checkRoles ["admin", "editor"] ["editor"] = some ErrRolesInvalid := by
  refine ⟨?_, ?_, rfl⟩
  · induction required with
    | nil => simp [checkRoles]
    | cons r rest ih =>
      by_cases h : resolved.contains r
      · have hm : r ∈ resolved := (containsAgreesWithMem resolved r).mp h
        simp only [checkRoles, if_pos h, ih, List.mem_cons]
        constructor
        · intro hall r' hr'
          rcases hr' with hr' | hr'
          · exact hr' ▸ hm
          · exact hall r' hr'
        · intro hall r' hr'
          exact hall r' (Or.inr hr')
      · have hr : r ∉ resolved := fun hm => h ((containsAgreesWithMem resolved r).mpr hm)
        constructor
        · intro hnone
          simp only [checkRoles, if_neg h] at hnone
          exact absurd hnone (by simp)
        · intro hall
          exact absurd (hall r (List.mem_cons_self r rest)) hr
  · induction required with
    | nil => simp [checkRoles]
    | cons r rest ih =>
      simp only [checkRoles]
      by_cases h : resolved.contains r
      · rw [if_pos h]
        exact ih
      · rw [if_neg h]
        exact Or.inr rfl

/-- C8: with no success hook, the authentication gate binds the decoded token
under the configured context key exactly when the decoder returned no error
and the token's validity flag is true; on the extraction-error path and on
the validation-failure path the context returned is exactly the incoming
context, so the configured slot is untouched. -/
theorem c8_binds_principal_iff_success (cfg : KeycloakConfig) (ex : Extractor) (dec : Decoder)
    (ctx : EchoCtx) (eK : KErr) (auth : String)
    (hskip : skipperOf cfg.skipper ctx = false) (hbefore : cfg.beforeFunc = none)
    (hsucc : cfg.successHandler = none) :
    (runExtractor ex ctx = Except.error eK →
      mwIsNext (keycloakRun cfg ex dec ctx) = false ∧
      mwCtx (keycloakRun cfg ex dec ctx) = ctx) ∧
    (runExtractor ex ctx = Except.ok auth →
      ((validateToken dec cfg.keycloakRealm cfg.claims auth).2.2.isNone &&
        (validateToken dec cfg.keycloakRealm cfg.claims auth).2.1.valid) = true →
      keycloakRun cfg ex dec ctx =
        MWOut.next (ctxSet ctx cfg.contextKey
          (CtxValue.token (validateToken dec cfg.keycloakRealm cfg.claims auth).2.1)) ∧
      storeGet (mwCtx (keycloakRun cfg ex dec ctx)).store cfg.contextKey =
        some (CtxValue.token (validateToken dec cfg.keycloakRealm cfg.claims auth).2.1)) ∧
    (runExtractor ex ctx = Except.ok auth →
      ((validateToken dec cfg.keycloakRealm cfg.claims auth).2.2.isNone &&
        (validateToken dec cfg.keycloakRealm cfg.claims auth).2.1.valid) = false →
      mwIsNext (keycloakRun cfg ex dec ctx) = false ∧
      mwCtx (keycloakRun cfg ex dec ctx) = ctx) := by
  refine ⟨?_, ?_, ?_⟩
  · intro hex
    cases hEH : cfg.errorHandler <;> cases hEHC : cfg.errorHandlerWithContext <;>
      simp [keycloakRun, hskip, hbefore, applyHook, hex, hEH, hEHC, mwIsNext, mwCtx]
  · intro hex hok
    have h1 : keycloakRun cfg ex dec ctx =
        MWOut.next (ctxSet ctx cfg.contextKey
          (CtxValue.token (validateToken dec cfg.keycloakRealm cfg.claims auth).2.1)) := by
      simp [keycloakRun, hskip, hbefore, applyHook, hex, hok, hsucc]
    refine ⟨h1, ?_⟩
    rw [h1]
    simp [mwCtx, ctxSet, storeGet_storeSet_self]
  · intro hex hfail
    cases hEH : cfg.errorHandler <;> cases hEHC : cfg.errorHandlerWithContext <;>
      simp [keycloakRun, hskip, hbefore, applyHook, hex, hfail, hEH, hEHC, mwIsNext, mwCtx]

theorem c8_binds_principal_iff_success_witness :
    (skipperOf authCfgW.skipper ctxWithAuth = false ∧ authCfgW.beforeFunc = none ∧
      authCfgW.successHandler = none ∧
      runExtractor (Extractor.header "Authorization" "Bearer") ctxWithAuth = Except.ok "tok" ∧
      ((validateToken decoderGood authCfgW.keycloakRealm authCfgW.claims "tok").2.2.isNone &&
        (validateToken decoderGood authCfgW.keycloakRealm authCfgW.claims "tok").2.1.valid) = true) ∧
    (keycloakRun authCfgW (Extractor.header "Authorization" "Bearer") decoderGood ctxWithAuth =
      MWOut.next (ctxSet ctxWithAuth authCfgW.contextKey
        (CtxValue.token (validateToken decoderGood authCfgW.keycloakRealm authCfgW.claims "tok").2.1)) ∧
      storeGet (mwCtx (keycloakRun authCfgW (Extractor.header "Authorization" "Bearer") decoderGood
          ctxWithAuth)).store authCfgW.contextKey =
        some (CtxValue.token (validateToken decoderGood authCfgW.keycloakRealm authCfgW.claims "tok").2.1)) :=
  ⟨⟨rfl, rfl, rfl, rfl, rfl⟩,
    (c8_binds_principal_iff_success authCfgW (Extractor.header "Authorization" "Bearer") decoderGood
      ctxWithAuth ErrTokenMissing "tok" rfl rfl rfl).2.1 rfl rfl⟩

/-- C9 counterexample: in a configuration with no custom claims shape (Claims
left nil), the defaulting of keycloak.go lines 118-120 makes the interface
assertion of line 163 succeed, so the gate still calls the custom-claims
decode entry point, not the default decode call. -/
theorem c9_counterexample_no_custom_claims_still_custom_decode :
    ({ DefaultKeycloakConfig with keycloakURL := "http://kc", claims := none } : KeycloakConfig).claims = none ∧
    (validateToken decoderGood
      (keycloakApplyDefaults { DefaultKeycloakConfig with keycloakURL := "http://kc", claims := none }).keycloakRealm
      (keycloakApplyDefaults { DefaultKeycloakConfig with keycloakURL := "http://kc", claims := none }).claims
      "tok").1 = DecodeCall.customCall ∧
    DecodeCall.customCall ≠ DecodeCall.defaultCall :=
  ⟨rfl, rfl, by decide⟩

/-- C9 amended: after defaulting, the claims field is never nil, and since
the guard of keycloak.go line 163 asserts an interface value to its own
interface type, every configuration validates through the custom-claims
decode call; the default decode call of line 166 is unreachable. -/
theorem c9_validation_always_custom_decode (cfg : KeycloakConfig) (dec : Decoder) (auth : String) :
    (validateToken dec (keycloakApplyDefaults cfg).keycloakRealm
      (keycloakApplyDefaults cfg).claims auth).1 = DecodeCall.customCall := by
  cases hcl : cfg.claims with
  | none => simp [keycloakApplyDefaults, hcl, DefaultKeycloakConfig, validateToken]
  | some cl => simp [keycloakApplyDefaults, hcl, validateToken]

/-- C10: whenever the token lookup string splits into a source part that is
none of "query", "param" and "cookie" and a name part, the gate silently
selects header extraction with that name; no configuration error is raised. -/
theorem c10_unknown_source_header_fallback (lookup scheme src name : String) (rest : List String)
    (hsplit : goSplit lookup ':' = src :: name :: rest)
    (hq : src ≠ "query") (hp : src ≠ "param") (hc : src ≠ "cookie") :
    selectExtractor lookup scheme = Exec.ret (Extractor.header name scheme) := by
  simp [selectExtractor, hsplit, hq, hp, hc]

theorem c10_unknown_source_header_fallback_witness :
    (goSplit "headr:X-Token" ':' = ["headr", "X-Token"] ∧
      "headr" ≠ "query" ∧ "headr" ≠ "param" ∧ "headr" ≠ "cookie") ∧
    selectExtractor "headr:X-Token" "Bearer" = Exec.ret (Extractor.header "X-Token" "Bearer") :=
  ⟨⟨rfl, by decide, by decide, by decide⟩,
    c10_unknown_source_header_fallback "headr:X-Token" "Bearer" "headr" "X-Token" [] rfl
      (by decide) (by decide) (by decide)⟩
